import Mathlib

/-!
Verification development for the hybrid retrieval-and-fusion pipeline of
`src/server/utils/query.ts` (Chat-con-documentos).

The TypeScript source is shallowly embedded below:
* floating-point scores are modelled as exact rationals (ℚ);
* JavaScript objects keyed by strings (`scores[id]`) are modelled as
  insertion-ordered association lists;
* `Array.prototype.sort` (stable since ES2019) with comparator
  `(a, b) => b.score - a.score` is modelled as a stable sort
  (`List.insertionSort`) by the corresponding relation;
* async collaborators (model, full-text index, vector index, chunk storage)
  are modelled as oracle functions returning `Except String`, and
  `Promise.all` as the first-error sequencing `tryAll`;
* JavaScript string primitives (`trim`, `split('\n')`, the regex class
  `[^\w\s]`) are modelled character-by-character on `List Char`.
-/

/-! ## Data model (interfaces from query.ts) -/

inductive Role
  | system
  | user
  | assistant
  | tool
  deriving DecidableEq, Repr

structure ChatMessage where
  role : Role
  content : String
  deriving DecidableEq, Repr

structure DocumentChunk where
  id : String
  text : String
  documentId : String
  sessionId : String
  deriving DecidableEq, Repr

/-- A full-text search row: a chunk joined with its fts rank. -/
structure DocumentChunkResult extends DocumentChunk where
  rank : ℚ
  deriving DecidableEq, Repr

structure VectorizeMatch where
  id : String
  score : ℚ
  deriving DecidableEq, Repr

/-- `matches` may be absent (the source guards with `result.matches?.forEach`),
and an element may be null (`match?.id`). -/
structure VectorizeMatches where
  «matches» : Option (List (Option VectorizeMatch))
  deriving DecidableEq, Repr

structure RankedResult where
  id : String
  score : ℚ
  deriving DecidableEq, Repr

structure QueryProcessingResult where
  messages : List ChatMessage
  relevantDocs : List DocumentChunk
  queries : List String
  deriving DecidableEq, Repr

/-! ## JavaScript string primitives on `List Char` -/

/-- The JavaScript regex class `\s` (WhiteSpace ∪ LineTerminator). -/
def jsIsSpaceChar (c : Char) : Bool :=
  let n := c.toNat
  n == 9 || n == 10 || n == 11 || n == 12 || n == 13 || n == 32 ||
  n == 0xa0 || n == 0x1680 || (0x2000 ≤ n && n ≤ 0x200a) ||
  n == 0x2028 || n == 0x2029 || n == 0x202f || n == 0x205f ||
  n == 0x3000 || n == 0xfeff

/-- The JavaScript regex class `\w`: `[A-Za-z0-9_]`. -/
def jsIsWordChar (c : Char) : Bool :=
  let n := c.toNat
  (65 ≤ n && n ≤ 90) || (97 ≤ n && n ≤ 122) || (48 ≤ n && n ≤ 57) || n == 95

/-- `String.prototype.trim`: drop leading and trailing `\s` characters. -/
def jsTrimChars (l : List Char) : List Char :=
  ((l.dropWhile jsIsSpaceChar).reverse.dropWhile jsIsSpaceChar).reverse

/-- `String.prototype.split('\n')`; on the empty string it yields `[""]`. -/
def jsSplitLines : List Char → List (List Char)
  | [] => [[]]
  | c :: cs =>
    if c = '\n' then [] :: jsSplitLines cs
    else
      match jsSplitLines cs with
      | [] => [[c]]
      | l :: ls => (c :: l) :: ls

/-- `term.trim().replace(/[^\w\s]/g, '')` from `searchDocumentChunks`. -/
def sanitizeTerm (t : String) : String :=
  ⟨(jsTrimChars t.data).filter (fun c => jsIsWordChar c || jsIsSpaceChar c)⟩

/-- Post-processing of the query-rewriting model response in
`rewriteToQueries`:
`response.split('\n').map(q => q.trim()).filter(q => q.length > 0).slice(0, 5)`. -/
def rewriteParse (resp : String) : List String :=
  ((((jsSplitLines resp.data).map (fun l => (⟨jsTrimChars l⟩ : String))).filter
    (fun q => q.length != 0)).take 5)

/-! ## Reciprocal Rank Fusion (`performReciprocalRankFusion`) -/

/-- `const RANKING_CONSTANT = 60`. -/
def RANKING_CONSTANT : ℚ := 60

/-- `1 / (RANKING_CONSTANT + index + 1)` at zero-based index `i`. -/
def rrfWeight (i : Nat) : ℚ := 1 / (RANKING_CONSTANT + (i : ℚ) + 1)

/-- `scores[id] = (scores[id] || 0) + s` on a JavaScript object modelled as an
insertion-ordered association list (accumulated scores are never 0, so
`|| 0` only fires for an absent key). -/
def updateAdd : List (String × ℚ) → String → ℚ → List (String × ℚ)
  | [], x, s => [(x, s)]
  | (k, v) :: rest, x, s =>
    if k = x then (k, v + s) :: rest else (k, v) :: updateAdd rest x s

/-- One `forEach((hit, index) => ...)` pass over a source list, starting at
index `i`.  A hit is skipped iff `!hit?.id`: the hit is null/undefined, or
its id is the empty string. -/
def addHitsFrom : List (String × ℚ) → List (Option String) → Nat → List (String × ℚ)
  | sc, [], _ => sc
  | sc, h :: rest, i =>
    addHitsFrom
      (match h with
        | some x => if x = "" then sc else updateAdd sc x (rrfWeight i)
        | none => sc)
      rest (i + 1)

/-- Ids of the full-text result list (only `.id` is read by the fusion). -/
def ftHitIds (ft : List (Option DocumentChunkResult)) : List (Option String) :=
  ft.map (Option.map (fun r => r.id))

/-- Ids of one vector result: `result.matches?.forEach` visits nothing when
`matches` is absent. -/
def vrHitIds (vr : VectorizeMatches) : List (Option String) :=
  match vr.«matches» with
  | none => []
  | some ms => ms.map (Option.map (fun m => m.id))

/-- The accumulated `scores` object after both `forEach` passes. -/
def rrfScores (fullTextResults : List (Option DocumentChunkResult))
    (vectorResults : List VectorizeMatches) : List (String × ℚ) :=
  vectorResults.foldl (fun sc v => addHitsFrom sc (vrHitIds v) 0)
    (addHitsFrom [] (ftHitIds fullTextResults) 0)

/-- `Object.entries(scores).map(([id, score]) => ({id, score}))
      .sort((a, b) => b.score - a.score)` — a stable descending sort. -/
def performReciprocalRankFusion (fullTextResults : List (Option DocumentChunkResult))
    (vectorResults : List VectorizeMatches) : List RankedResult :=
  ((rrfScores fullTextResults vectorResults).map
    (fun p => RankedResult.mk p.1 p.2)).insertionSort
    (fun a b => b.score ≤ a.score)

instance : IsTotal RankedResult (fun a b => b.score ≤ a.score) :=
  ⟨fun a b => le_total b.score a.score⟩

instance : IsTrans RankedResult (fun a b => b.score ≤ a.score) :=
  ⟨fun _ _ _ hab hbc => le_trans hbc hab⟩

instance : IsTotal DocumentChunkResult (fun a b => b.rank ≤ a.rank) :=
  ⟨fun a b => le_total b.rank a.rank⟩

instance : IsTrans DocumentChunkResult (fun a b => b.rank ≤ a.rank) :=
  ⟨fun _ _ _ hab hbc => le_trans hbc hab⟩

/-- Score lookup in the association list (JS `scores[id]`). -/
def mapScore : List (String × ℚ) → String → Option ℚ
  | [], _ => none
  | (k, v) :: rest, x => if k = x then some v else mapScore rest x

/-- Score lookup defaulting to 0 for an absent id. -/
def mapScoreVal (sc : List (String × ℚ)) (x : String) : ℚ :=
  (mapScore sc x).getD 0

/-- Score of an id in a ranked result list (first entry with that id). -/
def scoreEntry : List RankedResult → String → Option ℚ
  | [], _ => none
  | r :: rest, x => if r.id = x then some r.score else scoreEntry rest x

/-- Score of an id in a ranked result list, defaulting to 0. -/
def scoreOf (rs : List RankedResult) (x : String) : ℚ :=
  (scoreEntry rs x).getD 0

/-! ### Spec-side definitions (from the specification's words)

"for each source list, for each hit at zero-based position `i`, add
`1 / (k + i + 1)` to that chunk id's accumulated score (hits with no
resolvable id are skipped). Scores from all lists accumulate additively
into one mapping." -/

/-- Spec-side contribution of one source list to the score of id `x`,
with the head of the list at position `i`. -/
def specListScore : List (Option String) → Nat → String → ℚ
  | [], _, _ => 0
  | h :: rest, i, x =>
    (if h = some x ∧ x ≠ "" then rrfWeight i else 0) + specListScore rest (i + 1) x

/-- All source lists seen by the fusion: the flattened lexical list plus one
list per vector result. -/
def sourceLists (ft : List (Option DocumentChunkResult))
    (vr : List VectorizeMatches) : List (List (Option String)) :=
  ftHitIds ft :: vr.map vrHitIds

/-- Spec-side fused score: the sum over all source lists of `1/(60+i+1)`
for each zero-based position `i` at which the id occurs. -/
def specFusedScore (lists : List (List (Option String))) (x : String) : ℚ :=
  (lists.map (fun l => specListScore l 0 x)).sum

/-- The id `x` occurs somewhere in the source list as a resolvable hit. -/
def validOccurs (hs : List (Option String)) (x : String) : Prop :=
  some x ∈ hs ∧ x ≠ ""

/-! ### The spec's worked RRF example -/

/-- Spec example: lexical list `[A,B,C]`. -/
def exampleLexList : List (Option DocumentChunkResult) :=
  [some ⟨⟨"A", "", "", ""⟩, 3⟩, some ⟨⟨"B", "", "", ""⟩, 2⟩, some ⟨⟨"C", "", "", ""⟩, 1⟩]

/-- Spec example: one vector list `[{matches:[B,D]}]`. -/
def exampleVecMatches : VectorizeMatches :=
  ⟨some [some ⟨"B", 1⟩, some ⟨"D", 1/2⟩]⟩


/-! ## The pipeline (`processUserQuery` and the event handler)

External collaborators are oracles returning `Except String`; `Promise.all`
is modelled by `tryAll`, which yields the first error if any member fails
(all members are started regardless; only the result matters here). -/

/-- `Promise.all` over a list of fallible calls. -/
def tryAll {α β : Type} (f : α → Except String β) : List α → Except String (List β)
  | [] => .ok []
  | a :: as =>
    match f a with
    | .error e => .error e
    | .ok b =>
      match tryAll f as with
      | .error e => .error e
      | .ok bs => .ok (b :: bs)

/-- Whether a call rejected. -/
def isErr {ε α : Type} : Except ε α → Bool
  | .error _ => true
  | .ok _ => false

/-- The collaborators of the pipeline (§6 of the source file):
query-rewriting model, full-text index (keyed by the sanitized term),
embedding + vector index (one combined call per expanded query), chunk
storage, and the streamed generation model. -/
structure Collab where
  rewriteModel : String → Except String String
  fts : String → Except String (List DocumentChunkResult)
  vectorSearch : String → Except String VectorizeMatches
  fetchChunks : List String → Except String (List DocumentChunk)
  llm : List ChatMessage → Except String (List String)

/-- `SYSTEM_MESSAGE` from query.ts. -/
def SYSTEM_MESSAGE : String :=
  "You are a helpful assistant that answers questions based on the provided context. \nWhen giving a response, always cite your sources using the format [1], [2], etc. corresponding to the document chunks provided."

/-- The system message prepended by `processUserQuery`. -/
def systemChatMessage : ChatMessage := ⟨Role.system, SYSTEM_MESSAGE⟩

/-- `rewriteToQueries`: try the model; on a throw, fall back to
`[content]`; on success, post-process the response lines. -/
def rewriteToQueries (c : Collab) (content : String) : List String :=
  match c.rewriteModel content with
  | .error _ => [content]
  | .ok resp => rewriteParse resp

/-- `searchDocumentChunks`: one fts query per term (all launched via
`Promise.all`); on any rejection the surrounding try/catch returns `[]`;
on success the per-term result lists are flattened, stably re-sorted by
rank descending, and capped at 10. -/
def searchDocumentChunks (c : Collab) (searchTerms : List String) :
    List DocumentChunkResult :=
  match tryAll (fun term => c.fts (sanitizeTerm term)) searchTerms with
  | .error _ => []
  | .ok results =>
    ((results.flatten).insertionSort (fun a b => b.rank ≤ a.rank)).take 10

/-- `getRelevantDocuments`: no storage call at all for an empty id list;
a storage rejection is caught and downgraded to `[]`. -/
def getRelevantDocuments (c : Collab) (ids : List String) : List DocumentChunk :=
  if ids.isEmpty then []
  else
    match c.fetchChunks ids with
    | .error _ => []
    | .ok docs => docs

/-- `formatContext`: `docs.map((doc, idx) => ...).join('\n\n')` with
1-based citation indices, in the order `docs` was given. -/
def formatContext (docs : List DocumentChunk) : String :=
  String.intercalate "\n\n"
    (docs.enum.map (fun p => "[" ++ toString (p.1 + 1) ++ "]: " ++ p.2.text))

/-- Model of the drizzle `SELECT ... WHERE id IN (ids)`: SQLite returns the
matching rows in storage (table) order, which need not match the order of
the id list. -/
def selectChunksInArray (store : List DocumentChunk) (ids : List String) :
    List DocumentChunk :=
  store.filter (fun ch => ids.contains ch.id)

/-- Spec-side renderer for the context block: the given texts in the given
order, each prefixed with its 1-based citation index. -/
def specRender (texts : List String) : String :=
  String.intercalate "\n\n"
    (texts.enum.map (fun p => "[" ++ toString (p.1 + 1) ++ "]: " ++ p.2))

/-- Which external collaborator a call went to. -/
inductive CallTag
  | rewrite
  | fts
  | vector
  | fetch
  | llm
  deriving DecidableEq, Repr

/-- The events pushed into the server-sent event stream. -/
inductive Ev
  | progress (msg : String)
  | progressQueries (msg : String) (qs : List String)
  | progressFound (msg : String) (found : Nat)
  | chunk (s : String)
  | error (msg : String)
  deriving DecidableEq, Repr

/-- `processUserQuery`: validation, system-message prepend, query
expansion, parallel dual search, fusion, context assembly.  Returns the
emitted events, the external calls made, and the result (`.error` models
the rethrown exception after the catch block streamed its error event). -/
def processUserQuery (c : Collab) (sessionId : String) (messages : List ChatMessage) :
    List Ev × List CallTag × Except String QueryProcessingResult :=
  if sessionId = "" then
    ([Ev.error "Processing failed: Session ID is required"], [],
     .error "Session ID is required")
  else
    match messages.getLast? with
    | none =>
      ([Ev.error "Processing failed: No messages provided"], [],
       .error "No messages provided")
    | some lastMessage =>
      if lastMessage.content = "" then
        ([Ev.error "Processing failed: Last message has no content"], [],
         .error "Last message has no content")
      else
        let messagesWithSystem := systemChatMessage :: messages
        let queries := rewriteToQueries c lastMessage.content
        let textResults := searchDocumentChunks c queries
        let searchCalls : List CallTag :=
          CallTag.rewrite :: (queries.map (fun _ => CallTag.fts)) ++
            (queries.map (fun _ => CallTag.vector))
        match tryAll c.vectorSearch queries with
        | .error e =>
          ([Ev.progress "Analyzing query...",
            Ev.progressQueries "Searching documents..." queries,
            Ev.error ("Processing failed: " ++ e)],
           searchCalls, .error e)
        | .ok vectorResults =>
          let rankedResults :=
            performReciprocalRankFusion (textResults.map some) vectorResults
          let topIds := (rankedResults.take 10).map (fun r => r.id)
          let relevantDocs := getRelevantDocuments c topIds
          let fetchCalls : List CallTag := if topIds.isEmpty then [] else [CallTag.fetch]
          ([Ev.progress "Analyzing query...",
            Ev.progressQueries "Searching documents..." queries,
            Ev.progressFound "Compiling context..." relevantDocs.length],
           searchCalls ++ fetchCalls,
           .ok { messages := messagesWithSystem ++
                   [⟨Role.assistant, "Context from documents:\n" ++ formatContext relevantDocs⟩],
                 relevantDocs := relevantDocs,
                 queries := queries })

/-- The closed event stream produced by the API handler. -/
structure HandlerOut where
  events : List Ev
  closed : Bool
  deriving DecidableEq, Repr

/-- The `defineEventHandler` body: run `processUserQuery`; on success run
the streamed generation and forward each decoded chunk; on any failure
push one more error event; the stream is closed on every path. -/
def apiHandler (c : Collab) (sessionId : String) (messages : List ChatMessage) :
    HandlerOut :=
  let r := processUserQuery c sessionId messages
  match r.2.2 with
  | .error e => ⟨r.1 ++ [Ev.error ("Failed to process query: " ++ e)], true⟩
  | .ok res =>
    match c.llm res.messages with
    | .error e => ⟨r.1 ++ [Ev.error ("Failed to process query: " ++ e)], true⟩
    | .ok chunks => ⟨r.1 ++ chunks.map Ev.chunk, true⟩

/-- Number of `error` events in a stream. -/
def errorCount (evs : List Ev) : Nat :=
  (evs.filter (fun e => match e with | Ev.error _ => true | _ => false)).length

/-- Number of `chunk` events in a stream. -/
def chunkCount (evs : List Ev) : Nat :=
  (evs.filter (fun e => match e with | Ev.chunk _ => true | _ => false)).length

/-! ## Concrete collaborator instances used in concrete runs -/

/-- A collaborator set in which every external call rejects. -/
def failAllCollab : Collab :=
  ⟨fun _ => .error "down", fun _ => .error "down", fun _ => .error "down",
   fun _ => .error "down", fun _ => .error "down"⟩

/-- All calls succeed; retrieval finds nothing. -/
def okEmptyCollab : Collab :=
  ⟨fun _ => .ok "q1", fun _ => .ok [], fun _ => .ok ⟨none⟩,
   fun _ => .ok [], fun _ => .ok []⟩

/-- Chunk storage whose table holds chunk B before chunk A. -/
def c2Store : List DocumentChunk :=
  [⟨"B", "tb", "d", "s"⟩, ⟨"A", "ta", "d", "s"⟩]

/-- Collaborators whose chunk fetch is the drizzle `IN` select over
`c2Store`. -/
def c2Collab : Collab :=
  ⟨fun _ => .error "down", fun _ => .error "down", fun _ => .error "down",
   fun ids => .ok (selectChunksInArray c2Store ids), fun _ => .error "down"⟩

/-- One full-text hit for the assembly-failure run. -/
def c3Chunk : DocumentChunkResult := ⟨⟨"c1", "t1", "d1", "s1"⟩, 1⟩

/-- Expansion, search and generation succeed, but every chunk fetch
rejects. -/
def c3Collab : Collab :=
  ⟨fun _ => .ok "q1", fun _ => .ok [c3Chunk], fun _ => .ok ⟨some []⟩,
   fun _ => .error "db down", fun _ => .ok ["Hello"]⟩

/-- The rewrite model succeeds with an unusable (empty) response. -/
def c4EmptyCollab : Collab :=
  ⟨fun _ => .ok "", fun _ => .error "down", fun _ => .error "down",
   fun _ => .error "down", fun _ => .error "down"⟩

/-- The rewrite model call rejects. -/
def c4FailCollab : Collab :=
  ⟨fun _ => .error "model down", fun _ => .error "down", fun _ => .error "down",
   fun _ => .error "down", fun _ => .error "down"⟩

/-- The vector source rejects; everything else succeeds. -/
def c5VecFailCollab : Collab :=
  ⟨fun _ => .ok "q1", fun _ => .ok [], fun _ => .error "vector down",
   fun _ => .ok [], fun _ => .ok []⟩

/-- The lexical source rejects; everything else succeeds. -/
def c5LexFailCollab : Collab :=
  ⟨fun _ => .ok "q1", fun _ => .error "fts down", fun _ => .ok ⟨none⟩,
   fun _ => .ok [], fun _ => .ok []⟩

/-- A one-message user history used for concrete runs. -/
def exampleUserMessage : ChatMessage := ⟨Role.user, "What was Q2 revenue growth?"⟩

/-! ### Lemmas about the accumulated score object -/

lemma specListScore_cons (h : Option String) (rest : List (Option String))
    (i : Nat) (x : String) :
    specListScore (h :: rest) i x =
      (if h = some x ∧ x ≠ "" then rrfWeight i else 0) + specListScore rest (i + 1) x :=
  rfl

lemma mapScoreVal_updateAdd (sc : List (String × ℚ)) (x y : String) (s : ℚ) :
    mapScoreVal (updateAdd sc x s) y = mapScoreVal sc y + (if x = y then s else 0) := by
  induction sc with
  | nil =>
    simp only [updateAdd, mapScoreVal, mapScore]
    by_cases hxy : x = y
    · subst hxy; simp
    · simp [hxy]
  | cons p rest ih =>
    obtain ⟨k, v⟩ := p
    simp only [updateAdd]
    by_cases hkx : k = x
    · subst hkx
      simp only [if_pos rfl, mapScoreVal, mapScore]
      by_cases hky : k = y
      · subst hky; simp
      · simp [hky]
    · rw [if_neg hkx]
      simp only [mapScoreVal, mapScore] at ih ⊢
      by_cases hky : k = y
      · subst hky
        rw [if_pos rfl, if_pos rfl, if_neg (fun h : x = k => hkx h.symm)]
        simp
      · rw [if_neg hky, if_neg hky, ih]

lemma mapScore_updateAdd_none (sc : List (String × ℚ)) (x y : String) (s : ℚ) :
    mapScore (updateAdd sc x s) y = none ↔ mapScore sc y = none ∧ x ≠ y := by
  induction sc with
  | nil =>
    simp only [updateAdd, mapScore]
    by_cases hxy : x = y
    · simp [hxy]
    · simp [hxy]
  | cons p rest ih =>
    obtain ⟨k, v⟩ := p
    simp only [updateAdd]
    by_cases hkx : k = x
    · subst hkx
      simp only [if_pos rfl, mapScore]
      by_cases hky : k = y
      · simp [hky]
      · simp [hky]
    · rw [if_neg hkx]
      simp only [mapScore]
      by_cases hky : k = y
      · simp [hky]
      · simp [hky, ih]

lemma mapScoreVal_addHitsFrom (hs : List (Option String)) :
    ∀ (sc : List (String × ℚ)) (i : Nat) (y : String),
      mapScoreVal (addHitsFrom sc hs i) y = mapScoreVal sc y + specListScore hs i y := by
  induction hs with
  | nil => intro sc i y; simp [addHitsFrom, specListScore]
  | cons h rest ih =>
    intro sc i y
    rw [specListScore_cons]
    match h with
    | none =>
      rw [if_neg (by simp)]
      show mapScoreVal (addHitsFrom sc rest (i + 1)) y = _
      rw [ih]
      ring
    | some x =>
      by_cases hx : x = ""
      · subst hx
        rw [if_neg (by rintro ⟨h1, h2⟩; exact h2 (Option.some.inj h1).symm)]
        show mapScoreVal (addHitsFrom (if ("" : String) = "" then sc else _) rest (i + 1)) y = _
        rw [if_pos rfl, ih]
        ring
      · show mapScoreVal (addHitsFrom (if x = "" then sc else updateAdd sc x (rrfWeight i))
          rest (i + 1)) y = _
        rw [if_neg hx, ih, mapScoreVal_updateAdd]
        by_cases hxy : x = y
        · subst hxy
          rw [if_pos rfl, if_pos ⟨rfl, hx⟩]
          ring
        · rw [if_neg hxy, if_neg (by rintro ⟨h1, _⟩; exact hxy (Option.some.inj h1))]
          ring

lemma mapScore_addHitsFrom_none (hs : List (Option String)) :
    ∀ (sc : List (String × ℚ)) (i : Nat) (y : String),
      mapScore (addHitsFrom sc hs i) y = none ↔
        mapScore sc y = none ∧ ¬ validOccurs hs y := by
  induction hs with
  | nil => intro sc i y; simp [addHitsFrom, validOccurs]
  | cons h rest ih =>
    intro sc i y
    match h with
    | none =>
      show mapScore (addHitsFrom sc rest (i + 1)) y = none ↔ _
      rw [ih]
      unfold validOccurs
      simp only [List.mem_cons]
      constructor
      · rintro ⟨h1, h2⟩
        refine ⟨h1, ?_⟩
        rintro ⟨(h3 | h3), h4⟩
        · exact Option.noConfusion h3
        · exact h2 ⟨h3, h4⟩
      · rintro ⟨h1, h2⟩
        exact ⟨h1, fun hc => h2 ⟨Or.inr hc.1, hc.2⟩⟩
    | some x =>
      by_cases hx : x = ""
      · subst hx
        show mapScore (addHitsFrom (if ("" : String) = "" then sc else _) rest (i + 1)) y
          = none ↔ _
        rw [if_pos rfl, ih]
        unfold validOccurs
        simp only [List.mem_cons]
        constructor
        · rintro ⟨h1, h2⟩
          refine ⟨h1, ?_⟩
          rintro ⟨(h3 | h3), h4⟩
          · exact h4 (Option.some.inj h3)
          · exact h2 ⟨h3, h4⟩
        · rintro ⟨h1, h2⟩
          exact ⟨h1, fun hc => h2 ⟨Or.inr hc.1, hc.2⟩⟩
      · show mapScore (addHitsFrom (if x = "" then sc else updateAdd sc x (rrfWeight i))
          rest (i + 1)) y = none ↔ _
        rw [if_neg hx, ih, mapScore_updateAdd_none]
        unfold validOccurs
        simp only [List.mem_cons]
        constructor
        · rintro ⟨⟨h1, h2⟩, h3⟩
          refine ⟨h1, ?_⟩
          rintro ⟨(h4 | h4), h5⟩
          · exact h2 (Option.some.inj h4).symm
          · exact h3 ⟨h4, h5⟩
        · rintro ⟨h1, h2⟩
          refine ⟨⟨h1, fun h4 => h2 ⟨Or.inl (by rw [h4]), h4 ▸ hx⟩⟩, ?_⟩
          exact fun hc => h2 ⟨Or.inr hc.1, hc.2⟩

lemma mapScoreVal_rrfScores (ft : List (Option DocumentChunkResult))
    (vr : List VectorizeMatches) (y : String) :
    mapScoreVal (rrfScores ft vr) y = specFusedScore (sourceLists ft vr) y := by
  suffices h : ∀ (vr : List VectorizeMatches) (sc : List (String × ℚ)),
      mapScoreVal (vr.foldl (fun sc v => addHitsFrom sc (vrHitIds v) 0) sc) y =
        mapScoreVal sc y + ((vr.map (fun v => specListScore (vrHitIds v) 0 y))).sum by
    have h2 := h vr (addHitsFrom [] (ftHitIds ft) 0)
    rw [rrfScores, h2, mapScoreVal_addHitsFrom]
    simp only [specFusedScore, sourceLists, List.map_cons, List.sum_cons, List.map_map]
    simp only [mapScoreVal, mapScore, Option.getD_none]
    ring_nf
    rfl
  intro vr
  induction vr with
  | nil => intro sc; simp
  | cons v rest ih =>
    intro sc
    rw [List.foldl_cons, ih, mapScoreVal_addHitsFrom, List.map_cons, List.sum_cons]
    ring

lemma mapScore_rrfScores_none (ft : List (Option DocumentChunkResult))
    (vr : List VectorizeMatches) (y : String) :
    mapScore (rrfScores ft vr) y = none ↔
      ¬ validOccurs (ftHitIds ft) y ∧ ∀ v ∈ vr, ¬ validOccurs (vrHitIds v) y := by
  suffices h : ∀ (vr : List VectorizeMatches) (sc : List (String × ℚ)),
      mapScore (vr.foldl (fun sc v => addHitsFrom sc (vrHitIds v) 0) sc) y = none ↔
        mapScore sc y = none ∧ ∀ v ∈ vr, ¬ validOccurs (vrHitIds v) y by
    rw [rrfScores, h, mapScore_addHitsFrom_none]
    simp only [mapScore, true_and, and_assoc]
  intro vr
  induction vr with
  | nil => intro sc; simp
  | cons v rest ih =>
    intro sc
    rw [List.foldl_cons, ih, mapScore_addHitsFrom_none]
    simp only [List.mem_cons, and_assoc]
    constructor
    · rintro ⟨h1, h2, h3⟩
      refine ⟨h1, ?_⟩
      rintro w (rfl | hw)
      · exact h2
      · exact h3 w hw
    · rintro ⟨h1, h2⟩
      exact ⟨h1, h2 v (Or.inl rfl), fun w hw => h2 w (Or.inr hw)⟩

/-! ### Keys of the score object are distinct; lookup is sort-invariant -/

lemma mem_keys_updateAdd (sc : List (String × ℚ)) (x y : String) (s : ℚ) :
    y ∈ (updateAdd sc x s).map Prod.fst ↔ y ∈ sc.map Prod.fst ∨ y = x := by
  induction sc with
  | nil => simp [updateAdd]
  | cons p rest ih =>
    obtain ⟨k, v⟩ := p
    simp only [updateAdd]
    by_cases hkx : k = x
    · rw [if_pos hkx]
      subst hkx
      simp only [List.map_cons, List.mem_cons]
      tauto
    · rw [if_neg hkx]
      simp only [List.map_cons, List.mem_cons, ih]
      tauto

lemma nodup_keys_updateAdd (sc : List (String × ℚ)) (x : String) (s : ℚ)
    (h : (sc.map Prod.fst).Nodup) : ((updateAdd sc x s).map Prod.fst).Nodup := by
  induction sc with
  | nil => simp [updateAdd]
  | cons p rest ih =>
    obtain ⟨k, v⟩ := p
    simp only [List.map_cons, List.nodup_cons] at h
    simp only [updateAdd]
    by_cases hkx : k = x
    · rw [if_pos hkx]
      simp only [List.map_cons, List.nodup_cons]
      exact ⟨h.1, h.2⟩
    · rw [if_neg hkx]
      simp only [List.map_cons, List.nodup_cons]
      refine ⟨?_, ih h.2⟩
      rw [mem_keys_updateAdd]
      rintro (hc | rfl)
      · exact h.1 hc
      · exact hkx rfl

lemma nodup_keys_addHitsFrom (hs : List (Option String)) :
    ∀ (sc : List (String × ℚ)) (i : Nat), (sc.map Prod.fst).Nodup →
      ((addHitsFrom sc hs i).map Prod.fst).Nodup := by
  induction hs with
  | nil => intro sc i h; exact h
  | cons h rest ih =>
    intro sc i hnd
    match h with
    | none => exact ih _ _ hnd
    | some x =>
      by_cases hx : x = ""
      · subst hx
        show ((addHitsFrom (if ("" : String) = "" then sc else _) rest (i + 1)).map
          Prod.fst).Nodup
        rw [if_pos rfl]
        exact ih _ _ hnd
      · show ((addHitsFrom (if x = "" then sc else updateAdd sc x (rrfWeight i)) rest
          (i + 1)).map Prod.fst).Nodup
        rw [if_neg hx]
        exact ih _ _ (nodup_keys_updateAdd _ _ _ hnd)

lemma nodup_keys_rrfScores (ft : List (Option DocumentChunkResult))
    (vr : List VectorizeMatches) : ((rrfScores ft vr).map Prod.fst).Nodup := by
  rw [rrfScores]
  have h0 : ((addHitsFrom [] (ftHitIds ft) 0).map Prod.fst).Nodup :=
    nodup_keys_addHitsFrom _ _ _ (by simp)
  revert h0
  generalize addHitsFrom [] (ftHitIds ft) 0 = sc
  induction vr generalizing sc with
  | nil => intro h; exact h
  | cons v rest ih =>
    intro h
    exact ih _ (nodup_keys_addHitsFrom _ _ _ h)

lemma scoreEntry_perm (rs rs' : List RankedResult) (hperm : rs.Perm rs')
    (hnd : (rs.map RankedResult.id).Nodup) (x : String) :
    scoreEntry rs x = scoreEntry rs' x := by
  induction hperm with
  | nil => rfl
  | cons a h ih =>
    simp only [List.map_cons, List.nodup_cons] at hnd
    by_cases ha : a.id = x
    · simp [scoreEntry, ha]
    · simp only [scoreEntry, if_neg ha]
      exact ih hnd.2
  | swap a b l =>
    simp only [List.map_cons, List.nodup_cons, List.mem_cons] at hnd
    by_cases hb : b.id = x <;> by_cases ha : a.id = x
    · exact absurd (hb.trans ha.symm) (fun hc => hnd.1 (Or.inl hc))
    · simp [scoreEntry, ha, hb]
    · simp [scoreEntry, ha, hb]
    · simp [scoreEntry, ha, hb]
  | trans p1 p2 ih1 ih2 =>
    rw [ih1 hnd, ih2]
    rw [← List.Perm.nodup_iff (List.Perm.map RankedResult.id p1)]
    exact hnd

lemma scoreEntry_map_mk (sc : List (String × ℚ)) (x : String) :
    scoreEntry (sc.map (fun p => RankedResult.mk p.1 p.2)) x = mapScore sc x := by
  induction sc with
  | nil => rfl
  | cons p rest ih =>
    obtain ⟨k, v⟩ := p
    by_cases hk : k = x
    · simp [scoreEntry, mapScore, hk]
    · simp [scoreEntry, mapScore, hk, ih]

lemma ids_map_mk (sc : List (String × ℚ)) :
    (sc.map (fun p => RankedResult.mk p.1 p.2)).map RankedResult.id = sc.map Prod.fst := by
  rw [List.map_map]
  rfl

/-- The final sort does not change the score associated with any id. -/
lemma scoreEntry_performRRF (ft : List (Option DocumentChunkResult))
    (vr : List VectorizeMatches) (x : String) :
    scoreEntry (performReciprocalRankFusion ft vr) x = mapScore (rrfScores ft vr) x := by
  rw [performReciprocalRankFusion, ← scoreEntry_map_mk (rrfScores ft vr) x]
  refine scoreEntry_perm _ _
    (List.perm_insertionSort (fun a b => b.score ≤ a.score) _) ?_ x
  rw [List.Perm.nodup_iff (List.Perm.map RankedResult.id
    (List.perm_insertionSort (fun a b => b.score ≤ a.score) _)), ids_map_mk]
  exact nodup_keys_rrfScores ft vr

lemma scoreOf_performRRF (ft : List (Option DocumentChunkResult))
    (vr : List VectorizeMatches) (x : String) :
    scoreOf (performReciprocalRankFusion ft vr) x = specFusedScore (sourceLists ft vr) x := by
  rw [scoreOf, scoreEntry_performRRF, ← mapScoreVal_rrfScores]
  rfl

lemma performRRF_sorted (ft : List (Option DocumentChunkResult))
    (vr : List VectorizeMatches) :
    (performReciprocalRankFusion ft vr).Pairwise (fun a b => b.score ≤ a.score) :=
  List.sorted_insertionSort _ _

lemma performRRF_example :
    performReciprocalRankFusion exampleLexList [exampleVecMatches] =
      [⟨"B", 1/62 + 1/61⟩, ⟨"A", 1/61⟩, ⟨"D", 1/62⟩, ⟨"C", 1/63⟩] := by
  have hsc : rrfScores exampleLexList [exampleVecMatches] =
      [("A", rrfWeight 0), ("B", rrfWeight 1 + rrfWeight 0), ("C", rrfWeight 2),
       ("D", rrfWeight 1)] := rfl
  have hw0 : rrfWeight 1 ≤ rrfWeight 0 := by norm_num [rrfWeight, RANKING_CONSTANT]
  have hw1 : ¬ (rrfWeight 1 ≤ rrfWeight 2) := by norm_num [rrfWeight, RANKING_CONSTANT]
  have hw2 : rrfWeight 1 ≤ rrfWeight 1 + rrfWeight 0 := by
    norm_num [rrfWeight, RANKING_CONSTANT]
  have hw3 : ¬ (rrfWeight 1 + rrfWeight 0 ≤ rrfWeight 0) := by
    norm_num [rrfWeight, RANKING_CONSTANT]
  rw [performReciprocalRankFusion, hsc]
  simp only [List.map_cons, List.map_nil, List.insertionSort, List.orderedInsert,
    hw0, hw1, hw2, hw3, if_true, if_false, ite_true, ite_false]
  norm_num [rrfWeight, RANKING_CONSTANT]

/-! ### Positional lemmas for spec-side scores -/

lemma specListScore_zero (x : String) (hs : List (Option String))
    (h : ∀ k : Nat, hs[k]? ≠ some (some x)) :
    ∀ i : Nat, specListScore hs i x = 0 := by
  induction hs with
  | nil => intro i; rfl
  | cons h0 rest ih =>
    intro i
    rw [specListScore_cons, if_neg, ih (fun k => by simpa using h (k + 1)) (i + 1)]
    · ring
    · rintro ⟨h1, _⟩
      exact h 0 (by simpa using h1)

lemma specListScore_single (x : String) (hx : x ≠ "") (hs : List (Option String)) :
    ∀ i j : Nat, hs[j]? = some (some x) →
      (∀ k, k ≠ j → hs[k]? ≠ some (some x)) →
      specListScore hs i x = rrfWeight (i + j) := by
  induction hs with
  | nil => intro i j hj _; simp at hj
  | cons h0 rest ih =>
    intro i j hj huniq
    match j with
    | 0 =>
      simp only [List.getElem?_cons_zero, Option.some.injEq] at hj
      rw [specListScore_cons, if_pos ⟨hj, hx⟩,
        specListScore_zero x rest
          (fun k => by simpa using huniq (k + 1) (by simp)) (i + 1)]
      simp
    | j' + 1 =>
      simp only [List.getElem?_cons_succ] at hj
      have h0ne : ¬ (h0 = some x ∧ x ≠ "") := by
        rintro ⟨h1, _⟩
        exact huniq 0 (by simp) (by simpa using h1)
      rw [specListScore_cons, if_neg h0ne,
        ih (i + 1) j' hj (fun k hk => by
          simpa using huniq (k + 1) (by simpa using hk))]
      have : i + 1 + j' = i + (j' + 1) := by omega
      rw [this]
      ring

/-! ## Claim theorems -/

/-- C1: for every lexical hit list and set of vector match lists, the fused
score of each chunk id equals the sum over all source lists of
`1/(60 + i + 1)` over the zero-based positions `i` at which the id occurs,
the returned `(id, score)` pairs are sorted by score descending, and on
the spec's worked example (lexical `[A,B,C]`, vector `[{matches:[B,D]}]`)
the scores are `1/61`, `1/62 + 1/61`, `1/63`, `1/62` and the fused order
is B, A, D, C. -/
theorem rrf_fused_score_and_order (ft : List (Option DocumentChunkResult))
    (vr : List VectorizeMatches) (x : String) :
    scoreOf (performReciprocalRankFusion ft vr) x = specFusedScore (sourceLists ft vr) x ∧
    (performReciprocalRankFusion ft vr).Pairwise (fun a b => b.score ≤ a.score) ∧
    performReciprocalRankFusion exampleLexList [exampleVecMatches] =
      [⟨"B", 1/62 + 1/61⟩, ⟨"A", 1/61⟩, ⟨"D", 1/62⟩, ⟨"C", 1/63⟩] :=
  ⟨scoreOf_performRRF ft vr x, performRRF_sorted ft vr, performRRF_example⟩

/-- C7: rank fusion is commutative in the source lists — permuting the
vector result lists leaves the accumulated score mapping identical, both
in the value recorded for every id and in which ids are present. -/
theorem rrf_commutative (ft : List (Option DocumentChunkResult))
    (vr vr' : List VectorizeMatches) (hperm : vr.Perm vr') (x : String) :
    mapScoreVal (rrfScores ft vr) x = mapScoreVal (rrfScores ft vr') x ∧
    (mapScore (rrfScores ft vr) x = none ↔ mapScore (rrfScores ft vr') x = none) := by
  constructor
  · rw [mapScoreVal_rrfScores, mapScoreVal_rrfScores]
    unfold specFusedScore sourceLists
    simp only [List.map_cons, List.sum_cons, List.map_map]
    have h2 : ((vr.map ((fun l => specListScore l 0 x) ∘ vrHitIds)).Perm
        (vr'.map ((fun l => specListScore l 0 x) ∘ vrHitIds))) :=
      hperm.map _
    rw [h2.sum_eq]
  · rw [mapScore_rrfScores_none, mapScore_rrfScores_none]
    constructor <;> rintro ⟨h1, h2⟩
    · exact ⟨h1, fun v hv => h2 v (hperm.mem_iff.mpr hv)⟩
    · exact ⟨h1, fun v hv => h2 v (hperm.mem_iff.mp hv)⟩

/-- Witness for C7 at a concrete permutation of two vector lists. -/
theorem rrf_commutative_witness :
    ([exampleVecMatches, VectorizeMatches.mk none].Perm
      [VectorizeMatches.mk none, exampleVecMatches]) ∧
    (mapScoreVal (rrfScores [] [exampleVecMatches, VectorizeMatches.mk none]) "B" =
      mapScoreVal (rrfScores [] [VectorizeMatches.mk none, exampleVecMatches]) "B" ∧
    (mapScore (rrfScores [] [exampleVecMatches, VectorizeMatches.mk none]) "B" = none ↔
      mapScore (rrfScores [] [VectorizeMatches.mk none, exampleVecMatches]) "B" = none)) :=
  ⟨List.Perm.swap (VectorizeMatches.mk none) exampleVecMatches [],
   rrf_commutative [] _ _
     (List.Perm.swap (VectorizeMatches.mk none) exampleVecMatches []) "B"⟩

lemma specFusedScore_cons (l : List (Option String))
    (rest : List (List (Option String))) (x : String) :
    specFusedScore (l :: rest) x = specListScore l 0 x + specFusedScore rest x := by
  unfold specFusedScore
  rw [List.map_cons, List.sum_cons]

lemma specFusedScore_zero (x : String) :
    ∀ lists : List (List (Option String)),
      (∀ (k : Nat) (l : List (Option String)), lists[k]? = some l →
        ∀ p : Nat, l[p]? ≠ some (some x)) →
      specFusedScore lists x = 0 := by
  intro lists
  induction lists with
  | nil => intro _; rfl
  | cons l rest ih =>
    intro h
    rw [specFusedScore_cons, specListScore_zero x l (h 0 l (by simp)) 0,
      ih (fun k l2 hk => h (k + 1) l2 (by simpa using hk))]
    ring

lemma specFusedScore_single_list (x : String) (hx : x ≠ "") :
    ∀ (lists : List (List (Option String))) (k₀ : Nat) (l₀ : List (Option String))
      (j : Nat),
      lists[k₀]? = some l₀ →
      l₀[j]? = some (some x) →
      (∀ k, k ≠ j → l₀[k]? ≠ some (some x)) →
      (∀ k, k ≠ k₀ → ∀ l, lists[k]? = some l → ∀ p : Nat, l[p]? ≠ some (some x)) →
      specFusedScore lists x = rrfWeight j := by
  intro lists
  induction lists with
  | nil => intro k₀ l₀ j hk _ _ _; simp at hk
  | cons l rest ih =>
    intro k₀ l₀ j hk hj huniq hothers
    match k₀ with
    | 0 =>
      have hl : l = l₀ := by simpa using hk
      subst hl
      rw [specFusedScore_cons, specListScore_single x hx l 0 j hj huniq,
        specFusedScore_zero x rest
          (fun k l2 hk2 => hothers (k + 1) (by simp) l2 (by simpa using hk2))]
      simp
    | k + 1 =>
      have hl0 : ∀ p : Nat, l[p]? ≠ some (some x) := hothers 0 (by simp) l (by simp)
      rw [specFusedScore_cons, specListScore_zero x l hl0 0,
        ih k l₀ j (by simpa using hk) hj huniq
          (fun k2 hk2 l2 hl2 =>
            hothers (k2 + 1) (by omega) l2 (by simpa using hl2))]
      ring

/-- C9: in rank fusion, a hit whose identifier is falsy or missing is
skipped without contributing any score but still occupies its position.
For any input, pick any source list — the flattened lexical list
(`sourceLists` index 0) or any of the vector match lists (later
indices) — with a falsy-id hit at position `i` and a valid hit for id `x`
at a later position `j`, `x` occurring validly nowhere else: the fused
score of `x` is `1/(60 + j + 1)`, computed from the original zero-based
index `j`, not from a renumbered position. -/
theorem rrf_skip_keeps_position (ft : List (Option DocumentChunkResult))
    (vr : List VectorizeMatches) (k₀ : Nat) (l₀ : List (Option String))
    (i j : Nat) (x : String)
    (hk : (sourceLists ft vr)[k₀]? = some l₀)
    (hij : i < j)
    (hi : l₀[i]? = some none ∨ l₀[i]? = some (some ""))
    (hj : l₀[j]? = some (some x)) (hx : x ≠ "")
    (huniq : ∀ k, k ≠ j → l₀[k]? ≠ some (some x))
    (hothers : ∀ k, k ≠ k₀ → ∀ l, (sourceLists ft vr)[k]? = some l →
      ∀ p : Nat, l[p]? ≠ some (some x)) :
    scoreOf (performReciprocalRankFusion ft vr) x = rrfWeight j := by
  rw [scoreOf_performRRF]
  exact specFusedScore_single_list x hx (sourceLists ft vr) k₀ l₀ j hk hj huniq hothers

/-- Witness for C9 on both `forEach` passes: a missing hit then `"V"` in
the lexical list, and a falsy-id (`""`) match followed by `"W"` inside a
vector match list; each valid hit scores `1/62` from its original
index 1. -/
theorem rrf_skip_keeps_position_witness :
    scoreOf (performReciprocalRankFusion
      [none, some ⟨⟨"V", "", "", ""⟩, 1⟩] []) "V" = rrfWeight 1 ∧
    scoreOf (performReciprocalRankFusion []
      [⟨some [some ⟨"", 1⟩, some ⟨"W", 1⟩]⟩]) "W" = rrfWeight 1 := by
  constructor
  · apply rrf_skip_keeps_position [none, some ⟨⟨"V", "", "", ""⟩, 1⟩] [] 0
      [none, some "V"] 0 1 "V" (by decide) (by decide) (Or.inl (by decide))
      (by decide) (by decide)
    · intro k hk
      match k with
      | 0 => simp
      | 1 => exact absurd rfl hk
      | n + 2 => simp
    · intro k hk0 l hl
      match k with
      | 0 => exact absurd rfl hk0
      | n + 1 => simp [sourceLists] at hl
  · apply rrf_skip_keeps_position [] [⟨some [some ⟨"", 1⟩, some ⟨"W", 1⟩]⟩] 1
      [some "", some "W"] 0 1 "W" (by decide) (by decide) (Or.inr (by decide))
      (by decide) (by decide)
    · intro k hk
      match k with
      | 0 => simp
      | 1 => exact absurd rfl hk
      | n + 2 => simp
    · intro k hk1 l hl
      match k with
      | 0 =>
        have h0 : l = [] := by
          have h2 := hl
          simp [sourceLists, ftHitIds] at h2
          exact h2
        subst h0
        intro p
        simp
      | 1 => exact absurd rfl hk1
      | n + 2 => simp [sourceLists] at hl

/-- C4 counterexample: a model call that succeeds with zero usable lines
makes `rewriteToQueries` return `[]`, not `[originalQuery]` — the fallback
only covers a thrown call. -/
theorem rewrite_zero_lines_counterexample :
    c4EmptyCollab.rewriteModel "What was Q2 revenue growth?" = .ok "" ∧
    rewriteToQueries c4EmptyCollab "What was Q2 revenue growth?" = [] ∧
    rewriteToQueries c4EmptyCollab "What was Q2 revenue growth?" ≠
      ["What was Q2 revenue growth?"] := by
  refine ⟨rfl, rfl, ?_⟩
  decide

/-- C4 (amended): if the model call throws, the Query Expander returns
exactly `[originalQuery]`; if the call succeeds it returns the non-empty
trimmed lines truncated to five — between 0 and 5 strings, with no
fallback in the zero-line case. -/
theorem rewriteToQueries_amended (c : Collab) (content : String) :
    (isErr (c.rewriteModel content) = true → rewriteToQueries c content = [content]) ∧
    (∀ resp, c.rewriteModel content = .ok resp →
      (rewriteToQueries c content).length ≤ 5 ∧
      ∀ q ∈ rewriteToQueries c content, q ≠ "") := by
  constructor
  · intro h
    unfold rewriteToQueries
    cases hc : c.rewriteModel content with
    | error e => rfl
    | ok r => rw [hc] at h; simp [isErr] at h
  · intro resp hresp
    unfold rewriteToQueries
    rw [hresp]
    constructor
    · unfold rewriteParse
      rw [List.length_take]
      exact inf_le_left
    · intro q hq
      have hq2 := List.mem_of_mem_take hq
      have hq3 := List.of_mem_filter hq2
      intro hq0
      rw [hq0] at hq3
      simp at hq3

/-- Witness for C4 (amended): the fallback on a thrown call, and the
0-to-5 bound on a successful call. -/
theorem rewriteToQueries_amended_witness :
    rewriteToQueries c4FailCollab "hola" = ["hola"] ∧
    (rewriteToQueries c4EmptyCollab "hola").length ≤ 5 :=
  ⟨(rewriteToQueries_amended c4FailCollab "hola").1 rfl,
   ((rewriteToQueries_amended c4EmptyCollab "hola").2 "" rfl).1⟩

/-- C8: every character of the sanitized term is a word character or
whitespace, and a term that sanitizes to the empty string yields zero
lexical hits rather than an error (the erroring fts MATCH is caught by
`searchDocumentChunks`). -/
theorem sanitize_only_word_and_space (t : String) (c : Collab) :
    (∀ ch ∈ (sanitizeTerm t).data, (jsIsWordChar ch || jsIsSpaceChar ch) = true) ∧
    (sanitizeTerm t = "" → isErr (c.fts "") = true → searchDocumentChunks c [t] = []) := by
  constructor
  · intro ch hch
    have h2 : ch ∈ (jsTrimChars t.data).filter
        (fun c => jsIsWordChar c || jsIsSpaceChar c) := hch
    exact (List.mem_filter.mp h2).2
  · intro h herr
    have hex : ∃ e, c.fts "" = .error e := by
      cases hfts : c.fts "" with
      | error e => exact ⟨e, rfl⟩
      | ok r => rw [hfts] at herr; simp [isErr] at herr
    obtain ⟨e, he⟩ := hex
    unfold searchDocumentChunks
    simp [tryAll, h, he]

/-- Witness for C8 at a term of pure punctuation. -/
theorem sanitize_only_word_and_space_witness :
    sanitizeTerm "!?." = "" ∧ searchDocumentChunks failAllCollab ["!?."] = [] := by
  refine ⟨by decide, ?_⟩
  exact (sanitize_only_word_and_space "!?." failAllCollab).2 (by decide) rfl

/-- C2 counterexample: with storage holding chunk B before chunk A, the
ranked id list [A, B] comes back formatted in storage order
(`[1]: tb`, `[2]: ta`), not in the caller-supplied rank order. -/
theorem formatContext_order_counterexample :
    getRelevantDocuments c2Collab ["A", "B"] =
      [⟨"B", "tb", "d", "s"⟩, ⟨"A", "ta", "d", "s"⟩] ∧
    formatContext (getRelevantDocuments c2Collab ["A", "B"]) = "[1]: tb\n\n[2]: ta" ∧
    formatContext (getRelevantDocuments c2Collab ["A", "B"]) ≠ "[1]: ta\n\n[2]: tb" := by
  refine ⟨rfl, ?_, ?_⟩ <;> decide

/-- C2 (amended): the Context Assembler formats the chunk texts in the
order the batch fetch returns them, each with its 1-based citation index;
the caller-supplied rank order is preserved only when the fetch happens to
return the chunks in that order. -/
theorem formatContext_follows_fetch_order (c : Collab) (ids : List String)
    (docs : List DocumentChunk) (hne : ids ≠ [])
    (hfetch : c.fetchChunks ids = .ok docs) :
    formatContext (getRelevantDocuments c ids) =
      specRender (docs.map (fun d => d.text)) := by
  unfold getRelevantDocuments
  rw [if_neg (by simp [hne]), hfetch]
  unfold formatContext specRender
  rw [List.enum_map, List.map_map]
  rfl

/-- Witness for C2 (amended) on the concrete two-chunk store. -/
theorem formatContext_follows_fetch_order_witness :
    (["A", "B"] : List String) ≠ [] ∧
    formatContext (getRelevantDocuments c2Collab ["A", "B"]) =
      specRender (([⟨"B", "tb", "d", "s"⟩, ⟨"A", "ta", "d", "s"⟩] :
        List DocumentChunk).map (fun d => d.text)) :=
  ⟨by decide,
   formatContext_follows_fetch_order c2Collab ["A", "B"]
     [⟨"B", "tb", "d", "s"⟩, ⟨"A", "ta", "d", "s"⟩] (by decide) rfl⟩

/-! ### `Promise.all` lemmas and pipeline claims -/

lemma tryAll_err_of_mem {α β : Type} (f : α → Except String β) (l : List α) (x : α)
    (hx : x ∈ l) (hf : isErr (f x) = true) : isErr (tryAll f l) = true := by
  induction l with
  | nil => simp at hx
  | cons a as ih =>
    cases hfa : f a with
    | error e => simp [tryAll, hfa, isErr]
    | ok b =>
      rcases List.mem_cons.mp hx with rfl | hx2
      · rw [hfa] at hf; simp [isErr] at hf
      · have h2 := ih hx2
        cases hrest : tryAll f as with
        | error e => simp [tryAll, hfa, hrest, isErr]
        | ok bs => rw [hrest] at h2; simp [isErr] at h2

lemma tryAll_ok_of_all {α β : Type} (f : α → Except String β) (l : List α)
    (h : ∀ x ∈ l, isErr (f x) = false) : ∃ ys, tryAll f l = .ok ys := by
  induction l with
  | nil => exact ⟨[], rfl⟩
  | cons a as ih =>
    cases hfa : f a with
    | error e =>
      have h2 := h a (List.mem_cons_self a as)
      rw [hfa] at h2; simp [isErr] at h2
    | ok b =>
      obtain ⟨bs, hbs⟩ := ih (fun x hx => h x (List.mem_cons_of_mem a hx))
      exact ⟨b :: bs, by simp [tryAll, hfa, hbs]⟩

lemma string_append_empty (s : String) : s ++ "" = s := by
  cases s with
  | mk data =>
    show String.mk (data ++ []) = String.mk data
    rw [List.append_nil]

/-- C6: a request with an empty session identifier or an empty message
history is rejected before any external call — the call log is empty —
and the failure is surfaced immediately as a single error event. -/
theorem processUserQuery_validation (c : Collab) (sessionId : String)
    (messages : List ChatMessage) (h : sessionId = "" ∨ messages = []) :
    (processUserQuery c sessionId messages).2.1 = [] ∧
    ∃ m, (processUserQuery c sessionId messages).1 =
        [Ev.error ("Processing failed: " ++ m)] ∧
      (processUserQuery c sessionId messages).2.2 = .error m := by
  rcases h with h | h
  · subst h
    unfold processUserQuery
    rw [if_pos rfl]
    exact ⟨rfl, "Session ID is required", rfl, rfl⟩
  · subst h
    by_cases hs : sessionId = ""
    · unfold processUserQuery
      rw [if_pos hs]
      exact ⟨rfl, "Session ID is required", rfl, rfl⟩
    · unfold processUserQuery
      rw [if_neg hs]
      exact ⟨rfl, "No messages provided", rfl, rfl⟩

/-- Witness for C6 at an empty session identifier. -/
theorem processUserQuery_validation_witness :
    (("" : String) = "" ∨ ([exampleUserMessage] : List ChatMessage) = []) ∧
    ((processUserQuery failAllCollab "" [exampleUserMessage]).2.1 = [] ∧
     ∃ m, (processUserQuery failAllCollab "" [exampleUserMessage]).1 =
         [Ev.error ("Processing failed: " ++ m)] ∧
       (processUserQuery failAllCollab "" [exampleUserMessage]).2.2 = .error m) :=
  ⟨Or.inl rfl,
   processUserQuery_validation failAllCollab "" [exampleUserMessage] (Or.inl rfl)⟩

/-- C10: every successful `processUserQuery` returns the caller's message
list with exactly the system message prepended and exactly one assistant
context message appended, the originals untouched in between; with zero
retrieved documents the appended context block is empty and the call still
succeeds. -/
theorem processUserQuery_messages_frame (c : Collab) (sessionId : String)
    (messages : List ChatMessage) (r : QueryProcessingResult)
    (h : (processUserQuery c sessionId messages).2.2 = .ok r) :
    r.messages = systemChatMessage :: messages ++
      [⟨Role.assistant, "Context from documents:\n" ++ formatContext r.relevantDocs⟩] ∧
    (r.relevantDocs = [] →
      r.messages = systemChatMessage :: messages ++
        [⟨Role.assistant, "Context from documents:\n"⟩]) := by
  by_cases hs : sessionId = ""
  · simp [processUserQuery, hs] at h
  · cases hlast : messages.getLast? with
    | none => simp [processUserQuery, hs, hlast] at h
    | some lastMessage =>
      by_cases hc : lastMessage.content = ""
      · simp [processUserQuery, hs, hlast, hc] at h
      · cases hv : tryAll c.vectorSearch (rewriteToQueries c lastMessage.content) with
        | error e => simp [processUserQuery, hs, hlast, hc, hv] at h
        | ok vectorResults =>
          simp only [processUserQuery, if_neg hs, hlast, if_neg hc, hv] at h
          rw [Except.ok.injEq] at h
          subst h
          refine ⟨rfl, fun hdocs => ?_⟩
          dsimp only at hdocs ⊢
          rw [hdocs]
          have hfc : formatContext ([] : List DocumentChunk) = "" := rfl
          rw [hfc, string_append_empty]

/-- Witness for C10 on a successful run retrieving zero documents. -/
theorem processUserQuery_messages_frame_witness :
    (processUserQuery okEmptyCollab "s1" [exampleUserMessage]).2.2 =
      .ok ⟨[systemChatMessage, exampleUserMessage,
            ⟨Role.assistant, "Context from documents:\n"⟩], [], ["q1"]⟩ ∧
    (⟨[systemChatMessage, exampleUserMessage,
       ⟨Role.assistant, "Context from documents:\n"⟩], [], ["q1"]⟩ :
        QueryProcessingResult).messages =
      systemChatMessage :: [exampleUserMessage] ++
        [⟨Role.assistant, "Context from documents:\n"⟩] := by
  have h : (processUserQuery okEmptyCollab "s1" [exampleUserMessage]).2.2 =
      .ok ⟨[systemChatMessage, exampleUserMessage,
            ⟨Role.assistant, "Context from documents:\n"⟩], [], ["q1"]⟩ := rfl
  exact ⟨h, (processUserQuery_messages_frame okEmptyCollab "s1"
    [exampleUserMessage] _ h).2 rfl⟩

/-- C3 counterexample: with every chunk fetch rejecting, the event stream
of the handler contains zero error events and one chunk event before
closing — not one error event and no chunk events. -/
theorem assembly_failure_counterexample :
    isErr (c3Collab.fetchChunks ["c1"]) = true ∧
    errorCount (apiHandler c3Collab "s1" [exampleUserMessage]).events = 0 ∧
    chunkCount (apiHandler c3Collab "s1" [exampleUserMessage]).events = 1 ∧
    (apiHandler c3Collab "s1" [exampleUserMessage]).closed = true := by
  refine ⟨rfl, ?_, ?_, ?_⟩ <;> rfl

/-- C3 (amended): a total chunk-lookup failure is swallowed —
`getRelevantDocuments` catches the rejection and returns no documents —
so `processUserQuery` still succeeds, emits no error event, and the
pipeline proceeds to generation with an empty context. -/
theorem assembly_failure_swallowed (c : Collab) (sessionId : String)
    (messages : List ChatMessage) (lastMessage : ChatMessage)
    (hs : sessionId ≠ "") (hlast : messages.getLast? = some lastMessage)
    (hc : lastMessage.content ≠ "")
    (hvec : ∀ q, isErr (c.vectorSearch q) = false)
    (hfetch : ∀ ids, isErr (c.fetchChunks ids) = true) :
    ∃ r, (processUserQuery c sessionId messages).2.2 = .ok r ∧
      r.relevantDocs = [] ∧
      errorCount (processUserQuery c sessionId messages).1 = 0 := by
  have hrd : ∀ ids, getRelevantDocuments c ids = [] := by
    intro ids
    unfold getRelevantDocuments
    by_cases hi : ids.isEmpty
    · rw [if_pos hi]
    · rw [if_neg hi]
      cases hf : c.fetchChunks ids with
      | error e => rfl
      | ok docs =>
        have h2 := hfetch ids
        rw [hf] at h2
        simp [isErr] at h2
  obtain ⟨ys, hys⟩ := tryAll_ok_of_all c.vectorSearch
    (rewriteToQueries c lastMessage.content) (fun q _ => hvec q)
  simp only [processUserQuery, if_neg hs, hlast, if_neg hc, hys]
  exact ⟨_, rfl, hrd _, rfl⟩

/-- Witness for C3 (amended) on the all-fetches-fail collaborators. -/
theorem assembly_failure_swallowed_witness :
    ("s1" : String) ≠ "" ∧
    ∃ r, (processUserQuery c3Collab "s1" [exampleUserMessage]).2.2 = .ok r ∧
      r.relevantDocs = [] ∧
      errorCount (processUserQuery c3Collab "s1" [exampleUserMessage]).1 = 0 :=
  ⟨by decide,
   assembly_failure_swallowed c3Collab "s1" [exampleUserMessage] exampleUserMessage
     (by decide) rfl (by decide) (fun _ => rfl) (fun _ => rfl)⟩

/-- C5 counterexample: a vector-source rejection for an expanded query is
not downgraded to an empty contribution — it fails the whole request at
the search stage with an error event. -/
theorem vector_failure_fails_request :
    isErr (c5VecFailCollab.vectorSearch "q1") = true ∧
    (processUserQuery c5VecFailCollab "s1" [exampleUserMessage]).2.2 =
      .error "vector down" ∧
    (processUserQuery c5VecFailCollab "s1" [exampleUserMessage]).1 =
      [Ev.progress "Analyzing query...",
       Ev.progressQueries "Searching documents..." ["q1"],
       Ev.error "Processing failed: vector down"] := by
  refine ⟨rfl, ?_, ?_⟩ <;> rfl

/-- C5 (amended): a lexical rejection for any expanded query empties the
entire lexical contribution (all queries, not only the failing one) while
the request still proceeds when the vector calls succeed; a vector
rejection for any expanded query fails the request at the search stage. -/
theorem search_partial_failure_amended (c : Collab) (sessionId : String)
    (messages : List ChatMessage) (lastMessage : ChatMessage)
    (hs : sessionId ≠ "") (hlast : messages.getLast? = some lastMessage)
    (hc : lastMessage.content ≠ "") :
    ((∃ t ∈ rewriteToQueries c lastMessage.content,
        isErr (c.fts (sanitizeTerm t)) = true) →
      searchDocumentChunks c (rewriteToQueries c lastMessage.content) = []) ∧
    ((∀ q ∈ rewriteToQueries c lastMessage.content, isErr (c.vectorSearch q) = false) →
      ∃ r, (processUserQuery c sessionId messages).2.2 = .ok r) ∧
    ((∃ q ∈ rewriteToQueries c lastMessage.content, isErr (c.vectorSearch q) = true) →
      ∃ e, (processUserQuery c sessionId messages).2.2 = .error e) := by
  refine ⟨?_, ?_, ?_⟩
  · rintro ⟨t, ht, herr⟩
    have h2 := tryAll_err_of_mem (fun term => c.fts (sanitizeTerm term)) _ t ht herr
    unfold searchDocumentChunks
    cases htr : tryAll (fun term => c.fts (sanitizeTerm term))
        (rewriteToQueries c lastMessage.content) with
    | error e => rfl
    | ok ys => rw [htr] at h2; simp [isErr] at h2
  · intro hall
    obtain ⟨ys, hys⟩ := tryAll_ok_of_all _ _ hall
    simp only [processUserQuery, if_neg hs, hlast, if_neg hc, hys]
    exact ⟨_, rfl⟩
  · rintro ⟨q, hq, herr⟩
    have h2 := tryAll_err_of_mem c.vectorSearch _ q hq herr
    cases htr : tryAll c.vectorSearch (rewriteToQueries c lastMessage.content) with
    | ok ys => rw [htr] at h2; simp [isErr] at h2
    | error e =>
      simp only [processUserQuery, if_neg hs, hlast, if_neg hc, htr]
      exact ⟨e, rfl⟩

/-- Witness for C5 (amended): lexical source down for the only expanded
query — lexical contribution empty, request succeeds. -/
theorem search_partial_failure_amended_witness :
    searchDocumentChunks c5LexFailCollab
      (rewriteToQueries c5LexFailCollab exampleUserMessage.content) = [] ∧
    ∃ r, (processUserQuery c5LexFailCollab "s1" [exampleUserMessage]).2.2 = .ok r := by
  have h := search_partial_failure_amended c5LexFailCollab "s1" [exampleUserMessage]
    exampleUserMessage (by decide) rfl (by decide)
  exact ⟨h.1 ⟨"q1", by decide, rfl⟩, h.2.1 (fun q _ => rfl)⟩
